import Mathlib

/-
Verification of the sttp state transition table parser (src/sttp.py).

The embedding models the core of STTP._parse as pure functions:
  * a row is a list of cells (strings), as produced by the csv reader;
  * cell access row[i] is modelled by List.get?, with a missing cell
    producing the distinct error ParseErr.indexError (Python IndexError);
  * STTPError raised through STTP._parse_error is modelled by
    ParseErr.rowError carrying the offending row and the message text;
  * Python int(...) is modelled by pyInt (optional whitespace, optional
    sign, digits with single underscores allowed between digits);
  * string slicing trigger[:2], trigger[2:], trigger[1:] is modelled by
    strTake / strDrop on the character list of the string.
-/

deriving instance DecidableEq for Except

namespace STTP

/-- A parsed transition record: ordered keys trigger, source, dest. -/
structure Transition where
  trigger : String
  source : String
  dest : String
  deriving DecidableEq, Repr

/-- Failures of STTP._parse.  stopIteration: empty file (next on empty
reader); headerError: header row mismatch; indexError: row access out of
bounds (Python IndexError); rowError: STTPError raised by _parse_error,
carrying the offending row and the message. -/
inductive ParseErr where
  | stopIteration
  | headerError
  | indexError
  | rowError (row : List String) (msg : String)
  deriving DecidableEq, Repr

/-- Python whitespace characters stripped by int() (ASCII subset). -/
def isPySpace (c : Char) : Bool :=
  c = ' ' || c = '\t' || c = '\n' || c = '\x0d' || c = '\x0b' || c = '\x0c'

/-- After the first digit of a Python integer literal: digits with single
underscores allowed only between digits. -/
def pyDigitTail : List Char → Bool
  | [] => true
  | ['_'] => false
  | '_' :: c :: rest => c.isDigit && pyDigitTail rest
  | c :: rest => c.isDigit && pyDigitTail rest

/-- Numeric value of a digit list (underscores removed beforehand). -/
def digitsToNat (l : List Char) : Nat :=
  l.foldl (fun a c => 10 * a + (c.toNat - '0'.toNat)) 0

/-- Model of Python int(s): strip whitespace, optional sign, then a
non-empty digit sequence with single underscores between digits. -/
def pyInt (s : String) : Option Int :=
  let l := ((s.data.dropWhile isPySpace).reverse.dropWhile isPySpace).reverse
  let signBody : Int × List Char :=
    match l with
    | '+' :: rest => (1, rest)
    | '-' :: rest => (-1, rest)
    | _ => (1, l)
  match signBody.2 with
  | [] => none
  | c :: rest =>
    if c.isDigit && pyDigitTail rest then
      some (signBody.1 * digitsToNat ((c :: rest).filter (fun x => x ≠ '_')))
    else none

/-- s[:n] on Python strings. -/
def strTake (s : String) (n : Nat) : String := String.mk (s.data.take n)

/-- s[n:] on Python strings. -/
def strDrop (s : String) (n : Nat) : String := String.mk (s.data.drop n)

/-- The STTPError message of the timed-trigger branch of STTP._parse,
exactly as the source concatenates it (including the missing space of
the adjacent string literals). -/
def timedMsg (suffix : String) : String :=
  "A '__' prefix indicates a timed transition and must befollowed by a number (seconds). Invalid value: " ++ suffix

/-- Source resolution stage of the STTP._parse loop body (lines 140-145):
resolve an empty source cell from previous_source, or establish the new
previous_source.  Returns the resolved source together with the updated
previous_source. -/
def resolveSource (previousSource : Option String) (row : List String)
    (source0 : String) : Except ParseErr (String × Option String) :=
  if source0 = "" then
    match previousSource with
    | none => Except.error (ParseErr.rowError row "Undefined previous source state.")
    | some p => Except.ok (p, previousSource)
  else Except.ok (source0, some source0)

/-- Trigger resolution stage of the STTP._parse loop body (lines 148-164):
synthesize an omitted trigger from dest, then classify timed / prefixed
event / plain. -/
def resolveTrigger (row : List String) (dest trigger0 : String) :
    Except ParseErr String :=
  let trigger1 := if trigger0 = "" then "_" ++ dest else trigger0
  if strTake trigger1 2 = "__" then
    match pyInt (strDrop trigger1 2) with
    | none => Except.error (ParseErr.rowError row (timedMsg (strDrop trigger1 2)))
    | some seconds => Except.ok ("(after " ++ toString seconds ++ " sec.)")
  else if strTake trigger1 1 = "_" then
    Except.ok ("EVT_" ++ strDrop trigger1 1)
  else Except.ok trigger1

/-- The loop body of STTP._parse for one csv row, threading the
previous_source value: read row[0], row[1], row[2], resolve source, check
dest, resolve trigger.  Returns the transition together with the updated
previous_source, or the error the Python code raises. -/
def parseRow (previousSource : Option String) (row : List String) :
    Except ParseErr (Transition × Option String) :=
  match row.get? 0, row.get? 1, row.get? 2 with
  | some source0, some dest, some trigger0 =>
    match resolveSource previousSource row source0 with
    | Except.error e => Except.error e
    | Except.ok (source, previousSource') =>
      if dest = "" then
        Except.error (ParseErr.rowError row "Undefined destination state.")
      else
        match resolveTrigger row dest trigger0 with
        | Except.error e => Except.error e
        | Except.ok trigger =>
          Except.ok ({ trigger := trigger, source := source, dest := dest }, previousSource')
  | _, _, _ => Except.error ParseErr.indexError

/-- The row loop of STTP._parse over the data rows. -/
def parseRows : Option String → List (List String) → Except ParseErr (List Transition)
  | _, [] => Except.ok []
  | prev, row :: rest =>
    match parseRow prev row with
    | Except.error e => Except.error e
    | Except.ok (t, prev') =>
      match parseRows prev' rest with
      | Except.error e => Except.error e
      | Except.ok ts => Except.ok (t :: ts)

/-- The required header row. -/
def HEADER_ROW : List String := ["SOURCE", "DEST", "TRIGGER"]

/-- STTP._parse on the full list of csv rows (header first). -/
def parse : List (List String) → Except ParseErr (List Transition)
  | [] => Except.error ParseErr.stopIteration
  | header :: rest =>
    if header = HEADER_ROW then parseRows none rest
    else Except.error ParseErr.headerError

/-- Python dict assignment d[k] = v on an insertion-ordered association
list: overwrite in place when the key exists, append otherwise. -/
def updateInner : List (String × String) → String → String → List (String × String)
  | [], k, v => [(k, v)]
  | (k0, v0) :: rest, k, v =>
    if k0 = k then (k0, v) :: rest else (k0, v0) :: updateInner rest k v

/-- One iteration of STTP.dictify (line 178):
d.setdefault(t.source, dict()).update, i.e. write t.trigger at key t.dest
of the inner mapping of key t.source, creating the inner mapping at the
end when t.source is new. -/
def insertT : List (String × List (String × String)) → Transition →
    List (String × List (String × String))
  | [], t => [(t.source, [(t.dest, t.trigger)])]
  | (k, inner) :: rest, t =>
    if k = t.source then (k, updateInner inner t.dest t.trigger) :: rest
    else (k, inner) :: insertT rest t

/-- STTP.dictify over a parsed transition list: the adjacency mapping
source to (dest to trigger), as an insertion-ordered association list. -/
def dictify (ts : List Transition) : List (String × List (String × String)) :=
  ts.foldl insertT []

/-- Python dict lookup on an insertion-ordered association list. -/
def lookupA {α : Type} : List (String × α) → String → Option α
  | [], _ => none
  | (k0, v) :: rest, k => if k0 = k then some v else lookupA rest k

/-- Two-level lookup in the adjacency mapping: d.get(s).get(dst). -/
def lookup2 (d : List (String × List (String × String))) (s dst : String) :
    Option String :=
  match lookupA d s with
  | none => none
  | some inner => lookupA inner dst

/-- The previous_source update performed by one iteration of the row
loop: a non-empty source cell becomes the new previous_source, any other
row leaves it unchanged. -/
def updPrev1 (prev : Option String) (row : List String) : Option String :=
  match row.get? 0 with
  | some s => if s = "" then prev else some s
  | none => prev

/-- previous_source after the row loop has consumed a list of rows. -/
def updPrev (prev : Option String) (rows : List (List String)) : Option String :=
  rows.foldl updPrev1 prev

/-- The raw source cell of the nearest preceding row that specified a
non-empty source: the last non-empty first cell among the given rows
(this is the specification's description of source carry-over). -/
def nearestSrc (rows : List (List String)) : Option String :=
  ((rows.filterMap fun r => r.get? 0).filter fun s => decide (s ≠ "")).getLast?

/-- The invariant maintained for previous_source: whenever it is set, it
holds a non-empty string. -/
def PrevOK (prev : Option String) : Prop := ∀ p, prev = some p → p ≠ ""

/-! Auxiliary lemmas about the embedding. -/

theorem aux_data_append (s t : String) : (s ++ t).data = s.data ++ t.data := rfl

theorem aux_ne_empty_of_cons (s : String) (c : Char) (l : List Char)
    (h : s.data = c :: l) : s ≠ "" := by
  intro he
  rw [he] at h
  exact List.noConfusion h

theorem aux_resolveSource_prev (prev : Option String) (row : List String)
    (s src : String) (p' : Option String)
    (h : resolveSource prev row s = Except.ok (src, p')) :
    p' = (if s = "" then prev else some s) := by
  unfold resolveSource at h
  by_cases hs : s = "" <;> simp only [hs, if_true, if_false, ite_true, ite_false] at h ⊢
  · cases prev with
    | none => exact Except.noConfusion h
    | some p => exact (congrArg Prod.snd (Except.ok.inj h)).symm
  · exact (congrArg Prod.snd (Except.ok.inj h)).symm

theorem aux_resolveSource_empty_none (row : List String) :
    resolveSource none row "" =
      Except.error (ParseErr.rowError row "Undefined previous source state.") := by
  simp [resolveSource]

theorem aux_resolveSource_empty_some (row : List String) (p : String) :
    resolveSource (some p) row "" = Except.ok (p, some p) := by
  simp [resolveSource]

theorem aux_resolveSource_ne (prev : Option String) (row : List String)
    (s : String) (hs : s ≠ "") :
    resolveSource prev row s = Except.ok (s, some s) := by
  simp [resolveSource, hs]

theorem aux_eq_empty_of_data (a : String) (h : a.data = []) : a = "" :=
  congrArg String.mk h

theorem aux_append_ne_empty (a b : String) (ha : a ≠ "") : a ++ b ≠ "" := by
  intro he
  apply ha
  have hd := congrArg String.data he
  rw [aux_data_append] at hd
  exact aux_eq_empty_of_data a (List.append_eq_nil.mp hd).1

theorem aux_parseRow_cons_eq (prev : Option String) (s d tr : String)
    (rest : List String) :
    parseRow prev (s :: d :: tr :: rest) =
      match resolveSource prev (s :: d :: tr :: rest) s with
      | Except.error e => Except.error e
      | Except.ok (source, prev') =>
        if d = "" then
          Except.error
            (ParseErr.rowError (s :: d :: tr :: rest) "Undefined destination state.")
        else
          match resolveTrigger (s :: d :: tr :: rest) d tr with
          | Except.error e => Except.error e
          | Except.ok trigger => Except.ok (⟨trigger, source, d⟩, prev') := rfl

theorem aux_parseRow_short (prev : Option String) (row : List String)
    (h : row.length < 3) :
    parseRow prev row = Except.error ParseErr.indexError := by
  match row with
  | [] => rfl
  | [a] => rfl
  | [a, b] => rfl
  | a :: b :: c :: rest => simp [List.length_cons] at h; omega

theorem aux_parseRow_ok_shape (prev : Option String) (row : List String)
    (x : Transition × Option String) (h : parseRow prev row = Except.ok x) :
    ∃ s d tr rest, row = s :: d :: tr :: rest := by
  match row with
  | [] => exact Except.noConfusion h
  | [a] => exact Except.noConfusion h
  | [a, b] => exact Except.noConfusion h
  | s :: d :: tr :: rest => exact ⟨s, d, tr, rest, rfl⟩

theorem aux_resolveTrigger_timed_ok (row : List String) (d tr : String)
    (htr : tr ≠ "") (htake : strTake tr 2 = "__") (n : Int)
    (hpy : pyInt (strDrop tr 2) = some n) :
    resolveTrigger row d tr = Except.ok ("(after " ++ toString n ++ " sec.)") := by
  simp [resolveTrigger, htr, htake, hpy]

theorem aux_resolveTrigger_timed_err (row : List String) (d tr : String)
    (htr : tr ≠ "") (htake : strTake tr 2 = "__")
    (hpy : pyInt (strDrop tr 2) = none) :
    resolveTrigger row d tr =
      Except.error (ParseErr.rowError row (timedMsg (strDrop tr 2))) := by
  simp [resolveTrigger, htr, htake, hpy]

theorem aux_strTake_underscore_append (d : String) :
    strTake ("_" ++ d) 2 = "__" ↔ strTake d 1 = "_" := by
  show String.mk (('_' :: d.data).take 2) = "__" ↔ String.mk (d.data.take 1) = "_"
  rw [String.ext_iff, String.ext_iff]
  show '_' :: d.data.take 1 = ['_', '_'] ↔ d.data.take 1 = ['_']
  simp

theorem aux_strDrop_underscore_append (d : String) : strDrop ("_" ++ d) 1 = d := by
  show String.mk (('_' :: d.data).drop 1) = d
  rfl

theorem aux_resolveTrigger_synth (row : List String) (d : String)
    (hd : strTake d 1 ≠ "_") :
    resolveTrigger row d "" = Except.ok ("EVT_" ++ d) := by
  have h2 : ¬ strTake ("_" ++ d) 2 = "__" :=
    fun h => hd ((aux_strTake_underscore_append d).mp h)
  have h1 : strTake ("_" ++ d) 1 = "_" := by
    show String.mk (('_' :: d.data).take 1) = "_"
    rfl
  simp [resolveTrigger, h2, h1, aux_strDrop_underscore_append]

theorem aux_resolveSource_ok_cases (prev : Option String) (row : List String)
    (s src : String) (p' : Option String)
    (h : resolveSource prev row s = Except.ok (src, p')) :
    (s ≠ "" ∧ src = s ∧ p' = some s) ∨ (s = "" ∧ prev = some src ∧ p' = prev) := by
  by_cases hs : s = ""
  · right
    refine ⟨hs, ?_⟩
    subst hs
    cases prev with
    | none => rw [aux_resolveSource_empty_none] at h; exact Except.noConfusion h
    | some p =>
      rw [aux_resolveSource_empty_some] at h
      have := Except.ok.inj h
      exact ⟨congrArg some (congrArg Prod.fst this), (congrArg Prod.snd this).symm⟩
  · left
    rw [aux_resolveSource_ne prev row s hs] at h
    have := Except.ok.inj h
    exact ⟨hs, (congrArg Prod.fst this).symm, (congrArg Prod.snd this).symm⟩

theorem aux_resolveTrigger_ok_ne (row : List String) (d tr trig : String)
    (h : resolveTrigger row d tr = Except.ok trig) : trig ≠ "" := by
  by_cases h0 : tr = "" <;>
    simp only [resolveTrigger, h0, ite_true, ite_false] at h
  · split at h
    · split at h
      · exact Except.noConfusion h
      · cases Except.ok.inj h
        exact aux_append_ne_empty _ " sec.)"
          (aux_append_ne_empty "(after " _ (by decide))
    · split at h
      · cases Except.ok.inj h
        exact aux_append_ne_empty "EVT_" _ (by decide)
      · cases Except.ok.inj h
        exact aux_append_ne_empty "_" _ (by decide)
  · split at h
    · split at h
      · exact Except.noConfusion h
      · cases Except.ok.inj h
        exact aux_append_ne_empty _ " sec.)"
          (aux_append_ne_empty "(after " _ (by decide))
    · split at h
      · cases Except.ok.inj h
        exact aux_append_ne_empty "EVT_" _ (by decide)
      · cases Except.ok.inj h
        exact h0

theorem aux_parseRow_ok_elim (prev : Option String) (s d tr : String)
    (rest : List String) (t : Transition) (p' : Option String)
    (h : parseRow prev (s :: d :: tr :: rest) = Except.ok (t, p')) :
    ∃ src prev',
      resolveSource prev (s :: d :: tr :: rest) s = Except.ok (src, prev') ∧
      d ≠ "" ∧
      resolveTrigger (s :: d :: tr :: rest) d tr = Except.ok t.trigger ∧
      t.source = src ∧ t.dest = d ∧ p' = prev' := by
  rw [aux_parseRow_cons_eq] at h
  split at h
  · exact Except.noConfusion h
  · rename_i src prev' hr
    split at h
    · exact Except.noConfusion h
    · rename_i hd
      split at h
      · exact Except.noConfusion h
      · rename_i trig ht
        have hinj := Except.ok.inj h
        have h1 : (⟨trig, src, d⟩ : Transition) = t := congrArg Prod.fst hinj
        have h2 : prev' = p' := congrArg Prod.snd hinj
        subst h1
        exact ⟨src, prev', hr, hd, ht, rfl, rfl, h2.symm⟩

theorem aux_parseRow_ok_intro (prev : Option String) (s d tr : String)
    (rest : List String) (src : String) (prev' : Option String) (trig : String)
    (hr : resolveSource prev (s :: d :: tr :: rest) s = Except.ok (src, prev'))
    (hd : d ≠ "")
    (ht : resolveTrigger (s :: d :: tr :: rest) d tr = Except.ok trig) :
    parseRow prev (s :: d :: tr :: rest) = Except.ok (⟨trig, src, d⟩, prev') := by
  rw [aux_parseRow_cons_eq]
  simp only [hr, hd, ht, ite_false]

theorem aux_parseRow_src_err (prev : Option String) (s d tr : String)
    (rest : List String) (e : ParseErr)
    (hr : resolveSource prev (s :: d :: tr :: rest) s = Except.error e) :
    parseRow prev (s :: d :: tr :: rest) = Except.error e := by
  rw [aux_parseRow_cons_eq]
  simp only [hr]

theorem aux_parseRow_dest_err (prev : Option String) (s tr : String)
    (rest : List String) (src : String) (prev' : Option String)
    (hr : resolveSource prev (s :: "" :: tr :: rest) s = Except.ok (src, prev')) :
    parseRow prev (s :: "" :: tr :: rest) =
      Except.error
        (ParseErr.rowError (s :: "" :: tr :: rest) "Undefined destination state.") := by
  rw [aux_parseRow_cons_eq]
  simp only [hr, ite_true]

theorem aux_parseRow_trig_err (prev : Option String) (s d tr : String)
    (rest : List String) (src : String) (prev' : Option String) (e : ParseErr)
    (hr : resolveSource prev (s :: d :: tr :: rest) s = Except.ok (src, prev'))
    (hd : d ≠ "")
    (ht : resolveTrigger (s :: d :: tr :: rest) d tr = Except.error e) :
    parseRow prev (s :: d :: tr :: rest) = Except.error e := by
  rw [aux_parseRow_cons_eq]
  simp only [hr, hd, ht, ite_false]

theorem aux_parseRow_prevUpd (prev : Option String) (row : List String)
    (t : Transition) (p' : Option String)
    (h : parseRow prev row = Except.ok (t, p')) :
    p' = updPrev1 prev row := by
  obtain ⟨s, d, tr, rest, rfl⟩ := aux_parseRow_ok_shape _ _ _ h
  obtain ⟨src, prev', hr, hd, ht, hsrc, hdst, hp⟩ :=
    aux_parseRow_ok_elim _ _ _ _ _ _ _ h
  rcases aux_resolveSource_ok_cases _ _ _ _ _ hr with ⟨hs, _, hpe⟩ | ⟨hs, _, hpe⟩
  · show p' = if s = "" then prev else some s
    rw [if_neg hs, hp]
    exact hpe
  · show p' = if s = "" then prev else some s
    rw [if_pos hs, hp]
    exact hpe

theorem aux_parseRows_cons_err (prev : Option String) (row : List String)
    (rest : List (List String)) (e : ParseErr)
    (hr : parseRow prev row = Except.error e) :
    parseRows prev (row :: rest) = Except.error e := by
  unfold parseRows
  rw [hr]

theorem aux_parseRows_cons_ok_err (prev : Option String) (row : List String)
    (rest : List (List String)) (t : Transition) (prev' : Option String)
    (e : ParseErr) (hr : parseRow prev row = Except.ok (t, prev'))
    (hs : parseRows prev' rest = Except.error e) :
    parseRows prev (row :: rest) = Except.error e := by
  unfold parseRows
  rw [hr]
  show (match parseRows prev' rest with
    | Except.error e => Except.error e
    | Except.ok ts => Except.ok (t :: ts)) = Except.error e
  rw [hs]

theorem aux_parseRows_cons_ok (prev : Option String) (row : List String)
    (rest : List (List String)) (t : Transition) (prev' : Option String)
    (ts : List Transition) (hr : parseRow prev row = Except.ok (t, prev'))
    (hs : parseRows prev' rest = Except.ok ts) :
    parseRows prev (row :: rest) = Except.ok (t :: ts) := by
  unfold parseRows
  rw [hr]
  show (match parseRows prev' rest with
    | Except.error e => Except.error e
    | Except.ok ts => Except.ok (t :: ts)) = Except.ok (t :: ts)
  rw [hs]

theorem aux_parseRows_cons_elim (prev : Option String) (row : List String)
    (rest : List (List String)) (ts : List Transition)
    (h : parseRows prev (row :: rest) = Except.ok ts) :
    ∃ t prev' ts', parseRow prev row = Except.ok (t, prev') ∧
      parseRows prev' rest = Except.ok ts' ∧ ts = t :: ts' := by
  cases hr : parseRow prev row with
  | error e => rw [aux_parseRows_cons_err prev row rest e hr] at h; exact Except.noConfusion h
  | ok tp =>
    obtain ⟨t, prev'⟩ := tp
    cases hs : parseRows prev' rest with
    | error e =>
      rw [aux_parseRows_cons_ok_err prev row rest t prev' e hr hs] at h
      exact Except.noConfusion h
    | ok ts' =>
      rw [aux_parseRows_cons_ok prev row rest t prev' ts' hr hs] at h
      exact ⟨t, prev', ts', rfl, hs, (Except.ok.inj h).symm⟩

theorem aux_parseRows_length (rows : List (List String)) :
    ∀ (prev : Option String) (ts : List Transition),
      parseRows prev rows = Except.ok ts → ts.length = rows.length := by
  induction rows with
  | nil =>
    intro prev ts h
    cases Except.ok.inj h
    rfl
  | cons row rest ih =>
    intro prev ts h
    obtain ⟨t, prev', ts', hr, hs, rfl⟩ := aux_parseRows_cons_elim prev row rest ts h
    simp [ih prev' ts' hs]

theorem aux_parseRows_append (l1 l2 : List (List String)) :
    ∀ prev : Option String,
      parseRows prev (l1 ++ l2) =
        match parseRows prev l1 with
        | Except.error e => Except.error e
        | Except.ok ts1 =>
          match parseRows (updPrev prev l1) l2 with
          | Except.error e => Except.error e
          | Except.ok ts2 => Except.ok (ts1 ++ ts2) := by
  induction l1 with
  | nil =>
    intro prev
    show parseRows prev l2 =
      match parseRows prev l2 with
      | Except.error e => Except.error e
      | Except.ok ts2 => Except.ok ([] ++ ts2)
    cases parseRows prev l2 <;> simp
  | cons row rest ih =>
    intro prev
    rw [List.cons_append]
    cases hr : parseRow prev row with
    | error e =>
      rw [aux_parseRows_cons_err prev row (rest ++ l2) e hr,
        aux_parseRows_cons_err prev row rest e hr]
    | ok tp =>
      obtain ⟨t, prev'⟩ := tp
      have hpu : updPrev prev (row :: rest) = updPrev prev' rest := by
        show updPrev (updPrev1 prev row) rest = updPrev prev' rest
        rw [aux_parseRow_prevUpd prev row t prev' hr]
      have hmid := ih prev'
      cases hs1 : parseRows prev' rest with
      | error e1 =>
        rw [hs1] at hmid
        dsimp only at hmid
        rw [aux_parseRows_cons_ok_err prev row (rest ++ l2) t prev' e1 hr hmid,
          aux_parseRows_cons_ok_err prev row rest t prev' e1 hr hs1]
      | ok ts1 =>
        rw [hs1] at hmid
        dsimp only at hmid
        rw [aux_parseRows_cons_ok prev row rest t prev' ts1 hr hs1, hpu]
        cases hs2 : parseRows (updPrev prev' rest) l2 with
        | error e2 =>
          rw [hs2] at hmid
          dsimp only at hmid
          rw [aux_parseRows_cons_ok_err prev row (rest ++ l2) t prev' e2 hr hmid]
        | ok ts2 =>
          rw [hs2] at hmid
          dsimp only at hmid
          rw [aux_parseRows_cons_ok prev row (rest ++ l2) t prev' (ts1 ++ ts2) hr hmid]
          rfl

theorem aux_updPrev_nearest (rows : List (List String)) :
    ∀ prev : Option String, updPrev prev rows = (nearestSrc rows).or prev := by
  induction rows with
  | nil => intro prev; rfl
  | cons row rest ih =>
    intro prev
    show updPrev (updPrev1 prev row) rest = (nearestSrc (row :: rest)).or prev
    rw [ih]
    unfold nearestSrc
    rw [List.filterMap_cons]
    cases h0 : row.get? 0 with
    | none =>
      have h1 : updPrev1 prev row = prev := by unfold updPrev1; rw [h0]
      rw [h1]
    | some s =>
      have h1 : updPrev1 prev row = if s = "" then prev else some s := by
        unfold updPrev1; rw [h0]
      by_cases hs : s = ""
      · rw [h1, if_pos hs]
        have h2 : (decide (s ≠ "")) = false := by simp [hs]
        rw [List.filter_cons, h2]
        simp only [Bool.false_eq_true, if_false]
      · rw [h1, if_neg hs]
        have h2 : (decide (s ≠ "")) = true := by simp [hs]
        rw [List.filter_cons, h2]
        simp only [if_true]
        rw [List.getLast?_cons]
        cases hL : (List.filter (fun x => decide (x ≠ ""))
            (List.filterMap (fun r => r.get? 0) rest)).getLast? <;>
          simp [Option.or, Option.getD]

theorem aux_parseRow_fields (prev : Option String) (row : List String)
    (t : Transition) (p' : Option String) (hPrev : PrevOK prev)
    (h : parseRow prev row = Except.ok (t, p')) :
    t.trigger ≠ "" ∧ t.source ≠ "" ∧ t.dest ≠ "" ∧ PrevOK p' := by
  obtain ⟨s, d, tr, rest, rfl⟩ := aux_parseRow_ok_shape _ _ _ h
  obtain ⟨src, prev', hr, hd, ht, hsrc, hdst, hp⟩ :=
    aux_parseRow_ok_elim _ _ _ _ _ _ _ h
  have htrig := aux_resolveTrigger_ok_ne _ _ _ _ ht
  rcases aux_resolveSource_ok_cases _ _ _ _ _ hr with ⟨hs, h1, h2⟩ | ⟨hs, h1, h2⟩
  · refine ⟨htrig, ?_, by rw [hdst]; exact hd, ?_⟩
    · rw [hsrc, h1]; exact hs
    · rw [hp, h2]
      intro p hp2
      cases Option.some.inj hp2
      exact hs
  · refine ⟨htrig, ?_, by rw [hdst]; exact hd, ?_⟩
    · rw [hsrc]; exact hPrev src h1
    · rw [hp, h2]; exact hPrev

theorem aux_parseRows_fields (rows : List (List String)) :
    ∀ (prev : Option String) (ts : List Transition), PrevOK prev →
      parseRows prev rows = Except.ok ts →
      ∀ t ∈ ts, t.trigger ≠ "" ∧ t.source ≠ "" ∧ t.dest ≠ "" := by
  induction rows with
  | nil =>
    intro prev ts _ h t htm
    cases Except.ok.inj h
    exact absurd htm (List.not_mem_nil t)
  | cons row rest ih =>
    intro prev ts hPrev h t htm
    obtain ⟨t0, prev', ts', hr, hs, rfl⟩ := aux_parseRows_cons_elim _ _ _ _ h
    have hf := aux_parseRow_fields prev row t0 prev' hPrev hr
    rcases List.mem_cons.mp htm with rfl | hmem
    · exact ⟨hf.1, hf.2.1, hf.2.2.1⟩
    · exact ih prev' ts' hf.2.2.2 hs t hmem

theorem aux_parse_elim (rows : List (List String)) (ts : List Transition)
    (h : parse rows = Except.ok ts) :
    ∃ data, rows = HEADER_ROW :: data ∧ parseRows none data = Except.ok ts := by
  match rows with
  | [] => exact Except.noConfusion h
  | header :: data =>
    rw [show parse (header :: data) =
      (if header = HEADER_ROW then parseRows none data
        else Except.error ParseErr.headerError) from rfl] at h
    by_cases hh : header = HEADER_ROW
    · rw [if_pos hh] at h
      exact ⟨data, by rw [hh], h⟩
    · rw [if_neg hh] at h
      exact Except.noConfusion h

theorem aux_parse_cons (data : List (List String)) :
    parse (HEADER_ROW :: data) = parseRows none data := by
  rw [show parse (HEADER_ROW :: data) =
    (if HEADER_ROW = HEADER_ROW then parseRows none data
      else Except.error ParseErr.headerError) from rfl]
  rw [if_pos rfl]

theorem aux_lookupA_updateInner_self (l : List (String × String)) (k v : String) :
    lookupA (updateInner l k v) k = some v := by
  induction l with
  | nil => simp [updateInner, lookupA]
  | cons kv rest ih =>
    obtain ⟨k0, v0⟩ := kv
    by_cases h : k0 = k
    · simp [updateInner, h, lookupA]
    · simp [updateInner, h, lookupA, ih]

theorem aux_lookupA_updateInner_other (l : List (String × String))
    (k v k' : String) (hk : k' ≠ k) :
    lookupA (updateInner l k v) k' = lookupA l k' := by
  have hk0 : ¬ k = k' := fun he => hk he.symm
  induction l with
  | nil => simp [updateInner, lookupA, hk0]
  | cons kv rest ih =>
    obtain ⟨k0, v0⟩ := kv
    by_cases h : k0 = k
    · subst h
      simp [updateInner, lookupA, hk0]
    · simp [updateInner, h, lookupA, ih]

theorem aux_lookup2_cons_hit (k : String) (inner : List (String × String))
    (rest : List (String × List (String × String))) (s dst : String)
    (h : k = s) : lookup2 ((k, inner) :: rest) s dst = lookupA inner dst := by
  simp [lookup2, lookupA, h]

theorem aux_lookup2_cons_miss (k : String) (inner : List (String × String))
    (rest : List (String × List (String × String))) (s dst : String)
    (h : ¬ k = s) : lookup2 ((k, inner) :: rest) s dst = lookup2 rest s dst := by
  simp [lookup2, lookupA, h]

theorem aux_insertT_cons_hit (k : String) (inner : List (String × String))
    (rest : List (String × List (String × String))) (t : Transition)
    (h : k = t.source) :
    insertT ((k, inner) :: rest) t =
      (k, updateInner inner t.dest t.trigger) :: rest := by
  simp [insertT, h]

theorem aux_insertT_cons_miss (k : String) (inner : List (String × String))
    (rest : List (String × List (String × String))) (t : Transition)
    (h : ¬ k = t.source) :
    insertT ((k, inner) :: rest) t = (k, inner) :: insertT rest t := by
  simp [insertT, h]

theorem aux_lookup2_insertT (d : List (String × List (String × String)))
    (t : Transition) (s dst : String) :
    lookup2 (insertT d t) s dst =
      if t.source = s ∧ t.dest = dst then some t.trigger
      else lookup2 d s dst := by
  induction d with
  | nil =>
    by_cases h1 : t.source = s
    · by_cases h2 : t.dest = dst <;>
        simp [insertT, lookup2, lookupA, h1, h2]
    · simp [insertT, lookup2, lookupA, h1]
  | cons kv rest ih =>
    obtain ⟨k, inner⟩ := kv
    by_cases hk : k = t.source
    · rw [aux_insertT_cons_hit k inner rest t hk]
      by_cases hs : k = s
      · have h1 : t.source = s := hk ▸ hs
        rw [aux_lookup2_cons_hit k _ rest s dst hs,
          aux_lookup2_cons_hit k inner rest s dst hs]
        by_cases hd : t.dest = dst
        · rw [if_pos ⟨h1, hd⟩, ← hd]
          exact aux_lookupA_updateInner_self inner t.dest t.trigger
        · rw [if_neg (fun hc => hd hc.2)]
          exact aux_lookupA_updateInner_other inner t.dest t.trigger dst
            (fun he => hd he.symm)
      · have h1 : ¬ t.source = s := fun h => hs (hk.trans h)
        rw [aux_lookup2_cons_miss k _ rest s dst hs,
          if_neg (fun hc => h1 hc.1),
          aux_lookup2_cons_miss k inner rest s dst hs]
    · rw [aux_insertT_cons_miss k inner rest t hk]
      by_cases hs : k = s
      · have h1 : ¬ t.source = s := fun h => hk (hs.trans h.symm)
        rw [aux_lookup2_cons_hit k inner _ s dst hs,
          if_neg (fun hc => h1 hc.1),
          aux_lookup2_cons_hit k inner rest s dst hs]
      · rw [aux_lookup2_cons_miss k inner _ s dst hs, ih,
          aux_lookup2_cons_miss k inner rest s dst hs]

theorem aux_dictify_foldl (ts : List Transition) :
    ∀ (acc : List (String × List (String × String))) (s dst : String),
      lookup2 (ts.foldl insertT acc) s dst =
        ((ts.filter fun t => decide (t.source = s ∧ t.dest = dst)).getLast?.map
          Transition.trigger).or (lookup2 acc s dst) := by
  induction ts with
  | nil => intro acc s dst; simp
  | cons t rest ih =>
    intro acc s dst
    show lookup2 (rest.foldl insertT (insertT acc t)) s dst = _
    rw [ih, List.filter_cons]
    by_cases hp : t.source = s ∧ t.dest = dst
    · have hd : (decide (t.source = s ∧ t.dest = dst)) = true := by simp [hp]
      simp only [hd, if_true]
      rw [aux_lookup2_insertT, if_pos hp, List.getLast?_cons]
      cases hL : (rest.filter fun t => decide (t.source = s ∧ t.dest = dst)).getLast? <;>
        simp [hL, Option.or]
    · have hd : (decide (t.source = s ∧ t.dest = dst)) = false := by simp [hp]
      simp only [hd, Bool.false_eq_true, if_false]
      rw [aux_lookup2_insertT, if_neg hp]

theorem aux_resolveSource_indep (prev : Option String)
    (row1 row2 : List String) (s : String) :
    (∃ src prev', resolveSource prev row1 s = Except.ok (src, prev') ∧
      resolveSource prev row2 s = Except.ok (src, prev')) ∨
    (resolveSource prev row1 s =
        Except.error (ParseErr.rowError row1 "Undefined previous source state.") ∧
      resolveSource prev row2 s =
        Except.error (ParseErr.rowError row2 "Undefined previous source state.")) := by
  by_cases hs : s = ""
  · cases prev with
    | none =>
      right
      rw [hs]
      exact ⟨aux_resolveSource_empty_none row1, aux_resolveSource_empty_none row2⟩
    | some p =>
      left
      exact ⟨p, some p,
        by rw [hs]; exact aux_resolveSource_empty_some row1 p,
        by rw [hs]; exact aux_resolveSource_empty_some row2 p⟩
  · left
    exact ⟨s, some s, aux_resolveSource_ne prev row1 s hs,
      aux_resolveSource_ne prev row2 s hs⟩

theorem aux_resolveTrigger_indep (row1 row2 : List String) (d tr : String) :
    (∃ trig, resolveTrigger row1 d tr = Except.ok trig ∧
      resolveTrigger row2 d tr = Except.ok trig) ∨
    (∃ m, resolveTrigger row1 d tr = Except.error (ParseErr.rowError row1 m) ∧
      resolveTrigger row2 d tr = Except.error (ParseErr.rowError row2 m)) := by
  by_cases hA : strTake (if tr = "" then "_" ++ d else tr) 2 = "__"
  · cases hpy : pyInt (strDrop (if tr = "" then "_" ++ d else tr) 2) with
    | none =>
      right
      exact ⟨timedMsg (strDrop (if tr = "" then "_" ++ d else tr) 2),
        by simp [resolveTrigger, hA, hpy],
        by simp [resolveTrigger, hA, hpy]⟩
    | some n =>
      left
      exact ⟨"(after " ++ toString n ++ " sec.)",
        by simp [resolveTrigger, hA, hpy],
        by simp [resolveTrigger, hA, hpy]⟩
  · by_cases hB : strTake (if tr = "" then "_" ++ d else tr) 1 = "_"
    · left
      exact ⟨"EVT_" ++ strDrop (if tr = "" then "_" ++ d else tr) 1,
        by simp [resolveTrigger, hA, hB],
        by simp [resolveTrigger, hA, hB]⟩
    · left
      exact ⟨if tr = "" then "_" ++ d else tr,
        by simp [resolveTrigger, hA, hB],
        by simp [resolveTrigger, hA, hB]⟩

theorem aux_parseRow_dest_err2 (prev : Option String) (s d tr : String)
    (rest : List String) (src : String) (prev' : Option String) (hd : d = "")
    (hr : resolveSource prev (s :: d :: tr :: rest) s = Except.ok (src, prev')) :
    parseRow prev (s :: d :: tr :: rest) =
      Except.error (ParseErr.rowError (s :: d :: tr :: rest)
        "Undefined destination state.") := by
  subst hd
  exact aux_parseRow_dest_err prev s tr rest src prev' hr

/-! Claim theorems. -/

/-- C1 (counterexample): the claim says a synthesized trigger for an empty
trigger cell always falls into the prefixed-event rule, producing
EVT_ followed by dest, and never the timed rule.  But for dest "_5" the
synthesized trigger "__5" starts with two underscores, falls into the
timed rule, and the row parses successfully with trigger
"(after 5 sec.)", not "EVT__5". -/
theorem C1_counterexample :
    parseRow none ["A", "_5", ""] =
      Except.ok (⟨"(after 5 sec.)", "A", "_5"⟩, some "A") ∧
    ("(after 5 sec.)" : String) ≠ "EVT_" ++ "_5" :=
  ⟨by decide, by decide⟩

/-- C1 (amended): for every successfully parsed row whose raw trigger
cell is empty and whose destination does not start with an underscore,
the normalized trigger is EVT_ followed by the destination. -/
theorem C1_ok (prev : Option String) (s d : String) (rest : List String)
    (t : Transition) (p' : Option String) (hd : strTake d 1 ≠ "_")
    (h : parseRow prev (s :: d :: "" :: rest) = Except.ok (t, p')) :
    t.trigger = "EVT_" ++ d := by
  obtain ⟨src, prev', hr, hdne, ht, hsrc, hdst, hp⟩ :=
    aux_parseRow_ok_elim _ _ _ _ _ _ _ h
  rw [aux_resolveTrigger_synth _ d hd] at ht
  exact (Except.ok.inj ht).symm

/-- C1 (witness): the amended claim applied at the concrete row
A, B, empty trigger. -/
theorem C1_witness :
    strTake "B" 1 ≠ "_" ∧
    (⟨"EVT_B", "A", "B"⟩ : Transition).trigger = "EVT_" ++ "B" :=
  ⟨by decide,
    C1_ok none "A" "B" [] ⟨"EVT_B", "A", "B"⟩ (some "A") (by decide)
      (by decide)⟩

/-- C2 (counterexample): the claim's expected second transition has
source Running, but row 2 has an empty source cell and inherits the
previous row's raw source Idle, so the parser actually produces
(after 10 sec., Idle, Running). -/
theorem C2_counterexample :
    parse [HEADER_ROW,
        ["Idle", "Running", "_start"],
        ["", "Running", "__10"],
        ["Running", "Idle", "stop"]] =
      Except.ok [
        ⟨"EVT_start", "Idle", "Running"⟩,
        ⟨"(after 10 sec.)", "Idle", "Running"⟩,
        ⟨"stop", "Running", "Idle"⟩] ∧
    ([⟨"EVT_start", "Idle", "Running"⟩,
      ⟨"(after 10 sec.)", "Idle", "Running"⟩,
      ⟨"stop", "Running", "Idle"⟩] : List Transition) ≠
     [⟨"EVT_start", "Idle", "Running"⟩,
      ⟨"(after 10 sec.)", "Running", "Running"⟩,
      ⟨"stop", "Running", "Idle"⟩] :=
  ⟨by decide, by decide⟩

/-- C2 (amended): parsing the table SOURCE,DEST,TRIGGER /
Idle,Running,_start / ,Running,__10 / Running,Idle,stop succeeds with
exactly three transitions in order: (EVT_start, Idle, Running),
(after 10 sec., Idle, Running) — the carried source is Idle, the raw
source of the nearest preceding row — and (stop, Running, Idle). -/
theorem C2_ok :
    parse [HEADER_ROW,
        ["Idle", "Running", "_start"],
        ["", "Running", "__10"],
        ["Running", "Idle", "stop"]] =
      Except.ok [
        ⟨"EVT_start", "Idle", "Running"⟩,
        ⟨"(after 10 sec.)", "Idle", "Running"⟩,
        ⟨"stop", "Running", "Idle"⟩] := by
  decide

/-- C5 (counterexample): the claim says an empty destination cell always
fails with the missing-destination error, in particular also when the
source cell is empty and no previous source exists.  But the source
check runs first: the row with empty source, empty dest and no previous
source fails with the missing-source error instead. -/
theorem C5_counterexample :
    parseRow none ["", "", "x"] =
      Except.error
        (ParseErr.rowError ["", "", "x"] "Undefined previous source state.") ∧
    ParseErr.rowError ["", "", "x"] "Undefined previous source state." ≠
      ParseErr.rowError ["", "", "x"] "Undefined destination state." :=
  ⟨by decide, by decide⟩

/-- C5 (amended): for every row whose destination cell is empty and whose
source resolution does not itself fail (the source cell is non-empty, or
a previous source exists), parsing the row fails with the
missing-destination error, regardless of the trigger cell. -/
theorem C5_ok (prev : Option String) (s tr : String) (rest : List String)
    (hsrc : ¬ (s = "" ∧ prev = none)) :
    parseRow prev (s :: "" :: tr :: rest) =
      Except.error
        (ParseErr.rowError (s :: "" :: tr :: rest)
          "Undefined destination state.") := by
  by_cases hs : s = ""
  · cases prev with
    | none => exact absurd ⟨hs, rfl⟩ hsrc
    | some p =>
      exact aux_parseRow_dest_err (some p) s tr rest p (some p)
        (by rw [hs]; exact aux_resolveSource_empty_some _ p)
  · exact aux_parseRow_dest_err prev s tr rest s (some s)
      (aux_resolveSource_ne prev _ s hs)

/-- C5 (witness): the amended claim applied at the concrete row
A, empty dest, trigger x with no previous source. -/
theorem C5_witness :
    (¬ (("A" : String) = "" ∧ (none : Option String) = none)) ∧
    parseRow none ["A", "", "x"] =
      Except.error
        (ParseErr.rowError ["A", "", "x"] "Undefined destination state.") :=
  ⟨by decide, C5_ok none "A" "x" [] (by decide)⟩

/-- C9: a data row with fewer than three cells (for example the empty row
produced by a blank line) makes row access fail with the unclassified
IndexError, never with a classified row error carrying a message. -/
theorem C9_ok (prev : Option String) (row : List String)
    (h : row.length < 3) :
    parseRow prev row = Except.error ParseErr.indexError ∧
    ∀ r msg, parseRow prev row ≠ Except.error (ParseErr.rowError r msg) := by
  refine ⟨aux_parseRow_short prev row h, ?_⟩
  intro r msg hc
  rw [aux_parseRow_short prev row h] at hc
  exact ParseErr.noConfusion (Except.error.inj hc)

/-- C9 (witness): the empty row. -/
theorem C9_witness :
    ([] : List String).length < 3 ∧
    parseRow none [] = Except.error ParseErr.indexError :=
  ⟨by decide, (C9_ok none [] (by decide)).1⟩

/-- C6: every transition of a successfully parsed table has a non-empty
trigger, a non-empty source and a non-empty dest. -/
theorem C6_ok (rows : List (List String)) (ts : List Transition)
    (h : parse rows = Except.ok ts) :
    ∀ t ∈ ts, t.trigger ≠ "" ∧ t.source ≠ "" ∧ t.dest ≠ "" := by
  obtain ⟨data, rfl, hp⟩ := aux_parse_elim rows ts h
  exact aux_parseRows_fields data none ts
    (fun p hp2 => Option.noConfusion hp2) hp

/-- C6 (witness): the invariant evaluated on the three-row example
table. -/
theorem C6_witness :
    parse [HEADER_ROW,
        ["Idle", "Running", "_start"],
        ["", "Running", "__10"],
        ["Running", "Idle", "stop"]] =
      Except.ok [
        ⟨"EVT_start", "Idle", "Running"⟩,
        ⟨"(after 10 sec.)", "Idle", "Running"⟩,
        ⟨"stop", "Running", "Idle"⟩] ∧
    ∀ t ∈ ([⟨"EVT_start", "Idle", "Running"⟩,
        ⟨"(after 10 sec.)", "Idle", "Running"⟩,
        ⟨"stop", "Running", "Idle"⟩] : List Transition),
      t.trigger ≠ "" ∧ t.source ≠ "" ∧ t.dest ≠ "" :=
  ⟨by decide,
    C6_ok
      [HEADER_ROW,
        ["Idle", "Running", "_start"],
        ["", "Running", "__10"],
        ["Running", "Idle", "stop"]]
      [⟨"EVT_start", "Idle", "Running"⟩,
        ⟨"(after 10 sec.)", "Idle", "Running"⟩,
        ⟨"stop", "Running", "Idle"⟩]
      (by decide)⟩

/-- C7: the adjacency mapping built by dictify maps a pair of source s
and destination d to the trigger of the last transition in input order
whose source is s and dest is d (last-write-wins). -/
theorem C7_ok (ts : List Transition) (s dst : String) :
    lookup2 (dictify ts) s dst =
      ((ts.filter fun t => decide (t.source = s ∧ t.dest = dst)).getLast?.map
        Transition.trigger) := by
  show lookup2 (ts.foldl insertT []) s dst = _
  rw [aux_dictify_foldl]
  show _ = ((ts.filter fun t => decide (t.source = s ∧ t.dest = dst)).getLast?.map
    Transition.trigger)
  cases (ts.filter fun t => decide (t.source = s ∧ t.dest = dst)).getLast?.map
    Transition.trigger <;> rfl

/-- C4: for a row whose non-empty raw trigger starts with the two
underscores of the timed prefix, and whose source and destination
resolution do not themselves fail: when the suffix parses as an integer
n the normalized trigger is the timed form after n sec., and when it
does not, the row fails with the timed-trigger error whose message names
the offending suffix. -/
theorem C4_ok (prev : Option String) (s d tr : String)
    (rest : List String) (htr : tr ≠ "") (h2 : strTake tr 2 = "__")
    (hsrc : ¬ (s = "" ∧ prev = none)) (hd : d ≠ "") :
    (∀ n : Int, pyInt (strDrop tr 2) = some n →
      ∃ t p', parseRow prev (s :: d :: tr :: rest) = Except.ok (t, p') ∧
        t.trigger = "(after " ++ toString n ++ " sec.)") ∧
    (pyInt (strDrop tr 2) = none →
      parseRow prev (s :: d :: tr :: rest) =
        Except.error (ParseErr.rowError (s :: d :: tr :: rest)
          (timedMsg (strDrop tr 2)))) := by
  have hok : ∃ src prev',
      resolveSource prev (s :: d :: tr :: rest) s = Except.ok (src, prev') := by
    by_cases hs : s = ""
    · cases prev with
      | none => exact absurd ⟨hs, rfl⟩ hsrc
      | some p => exact ⟨p, some p, by rw [hs]; exact aux_resolveSource_empty_some _ p⟩
    · exact ⟨s, some s, aux_resolveSource_ne prev _ s hs⟩
  obtain ⟨src, prev', hr⟩ := hok
  constructor
  · intro n hpy
    exact ⟨⟨"(after " ++ toString n ++ " sec.)", src, d⟩, prev',
      aux_parseRow_ok_intro prev s d tr rest src prev' _ hr hd
        (aux_resolveTrigger_timed_ok _ d tr htr h2 n hpy), rfl⟩
  · intro hpy
    exact aux_parseRow_trig_err prev s d tr rest src prev' _ hr hd
      (aux_resolveTrigger_timed_err _ d tr htr h2 hpy)

/-- C4 (witness): both branches applied at concrete rows, trigger
suffix 7 parsing to the timed form, and suffix x failing with the
timed-trigger error. -/
theorem C4_witness :
    (∃ t p', parseRow none ["A", "B", "__7"] = Except.ok (t, p') ∧
      t.trigger = "(after " ++ toString (7 : Int) ++ " sec.)") ∧
    parseRow none ["A", "B", "__x"] =
      Except.error (ParseErr.rowError ["A", "B", "__x"]
        (timedMsg (strDrop "__x" 2))) :=
  ⟨(C4_ok none "A" "B" "__7" [] (by decide) (by decide) (by decide)
      (by decide)).1 7 (by decide),
    (C4_ok none "A" "B" "__x" [] (by decide) (by decide) (by decide)
      (by decide)).2 (by decide)⟩

/-- C3: a data row with an empty raw source cell resolves its source to
the raw source of the nearest preceding data row that specified a
non-empty raw source (transitively across consecutive blank-source
rows); and when no preceding row ever specified a non-empty source but
the preceding rows themselves parse, the whole parse fails with the
missing-source error on that row. -/
theorem C3_ok (pre post : List (List String)) (d tr : String)
    (rest : List String) :
    (∀ ts, parse (HEADER_ROW :: (pre ++ ("" :: d :: tr :: rest) :: post)) =
        Except.ok ts →
      ∃ t, ts.get? pre.length = some t ∧ some t.source = nearestSrc pre) ∧
    (∀ tsPre, parseRows none pre = Except.ok tsPre → nearestSrc pre = none →
      parse (HEADER_ROW :: (pre ++ ("" :: d :: tr :: rest) :: post)) =
        Except.error (ParseErr.rowError ("" :: d :: tr :: rest)
          "Undefined previous source state.")) := by
  constructor
  · intro ts h
    rw [aux_parse_cons, aux_parseRows_append] at h
    cases h1 : parseRows none pre with
    | error e => rw [h1] at h; exact Except.noConfusion h
    | ok ts1 =>
      rw [h1] at h
      dsimp only at h
      cases h2 : parseRows (updPrev none pre) (("" :: d :: tr :: rest) :: post) with
      | error e => rw [h2] at h; exact Except.noConfusion h
      | ok ts2 =>
        rw [h2] at h
        dsimp only at h
        obtain ⟨t, p', ts', hpr, hps, rfl⟩ := aux_parseRows_cons_elim _ _ _ _ h2
        obtain ⟨src, prev', hr, hd, ht, hsrc, hdst, hp⟩ :=
          aux_parseRow_ok_elim _ _ _ _ _ _ _ hpr
        rcases aux_resolveSource_ok_cases _ _ _ _ _ hr with
          ⟨hne, _, _⟩ | ⟨_, hprev, _⟩
        · exact absurd rfl hne
        · refine ⟨t, ?_, ?_⟩
          · have hts : ts = ts1 ++ t :: ts' := (Except.ok.inj h).symm
            have hlen : ts1.length = pre.length :=
              aux_parseRows_length pre none ts1 h1
            have h0 : pre.length - ts1.length = 0 := by omega
            rw [hts, List.get?_append_right (le_of_eq hlen), h0]
            rfl
          · rw [hsrc]
            have hor := (aux_updPrev_nearest pre none).symm.trans hprev
            rw [Option.or_none] at hor
            exact hor.symm
  · intro tsPre hPre hNone
    rw [aux_parse_cons, aux_parseRows_append, hPre]
    dsimp only
    have hup : updPrev none pre = none := by
      rw [aux_updPrev_nearest, hNone]
      rfl
    rw [hup, aux_parseRows_cons_err none _ post _
      (aux_parseRow_src_err none "" d tr rest _
        (aux_resolveSource_empty_none ("" :: d :: tr :: rest)))]

/-- C3 (witness): both parts at concrete tables: the blank-source row
after A,B,x resolves its source to A; and a table whose first data row
has a blank source fails with the missing-source error. -/
theorem C3_witness :
    (∃ t, ([⟨"x", "A", "B"⟩, ⟨"y", "A", "C"⟩] : List Transition).get? 1 = some t ∧
      some t.source = nearestSrc [["A", "B", "x"]]) ∧
    parse [HEADER_ROW, ["", "B", "x"]] =
      Except.error (ParseErr.rowError ["", "B", "x"]
        "Undefined previous source state.") := by
  constructor
  · have h := (C3_ok [["A", "B", "x"]] [] "C" "y" []).1
      [⟨"x", "A", "B"⟩, ⟨"y", "A", "C"⟩] (by decide)
    exact h
  · exact (C3_ok [] [] "B" "x" []).2 [] (by decide) (by decide)

/-- C8: a successful parse produces exactly one transition per data row,
in input row order: the output length equals the number of data rows,
and the transition at index i is the one produced by normalizing data
row i under the previous-source state accumulated over the first i
rows. -/
theorem C8_ok (data : List (List String)) (ts : List Transition)
    (h : parse (HEADER_ROW :: data) = Except.ok ts) :
    ts.length = data.length ∧
    ∀ i row, data.get? i = some row →
      ∃ t p', parseRow (updPrev none (data.take i)) row = Except.ok (t, p') ∧
        ts.get? i = some t := by
  rw [aux_parse_cons] at h
  refine ⟨aux_parseRows_length data none ts h, ?_⟩
  intro i row hrow
  have hi : i < data.length := by
    rcases List.get?_eq_some.mp hrow with ⟨hlt, _⟩
    exact hlt
  have hget : data[i] = row := by
    have hg := List.get?_eq_getElem? data i
    rw [hrow, List.getElem?_eq_getElem hi] at hg
    exact (Option.some.inj hg).symm
  have hdrop : data.drop i = row :: data.drop (i + 1) := by
    rw [List.drop_eq_getElem_cons hi, hget]
  have hsplit : parseRows none (data.take i ++ data.drop i) = Except.ok ts := by
    rw [List.take_append_drop]
    exact h
  rw [aux_parseRows_append] at hsplit
  cases h1 : parseRows none (data.take i) with
  | error e => rw [h1] at hsplit; exact Except.noConfusion hsplit
  | ok ts1 =>
    rw [h1] at hsplit
    dsimp only at hsplit
    cases h2 : parseRows (updPrev none (data.take i)) (data.drop i) with
    | error e => rw [h2] at hsplit; exact Except.noConfusion hsplit
    | ok ts2 =>
      rw [h2] at hsplit
      dsimp only at hsplit
      rw [hdrop] at h2
      obtain ⟨t, p', ts', hpr, hps, rfl⟩ := aux_parseRows_cons_elim _ _ _ _ h2
      refine ⟨t, p', hpr, ?_⟩
      have hts : ts = ts1 ++ t :: ts' := (Except.ok.inj hsplit).symm
      have hlen : ts1.length = (data.take i).length :=
        aux_parseRows_length _ none ts1 h1
      have hlen2 : ts1.length = i := by
        rw [hlen, List.length_take]
        exact Nat.min_eq_left (Nat.le_of_lt hi)
      have h0 : i - ts1.length = 0 := by omega
      rw [hts, List.get?_append_right (le_of_eq hlen2), h0]
      rfl

/-- C8 (witness): the length and order correspondence evaluated on the
three-row example table. -/
theorem C8_witness :
    ([⟨"EVT_start", "Idle", "Running"⟩,
      ⟨"(after 10 sec.)", "Idle", "Running"⟩,
      ⟨"stop", "Running", "Idle"⟩] : List Transition).length =
      [["Idle", "Running", "_start"],
        ["", "Running", "__10"],
        ["Running", "Idle", "stop"]].length ∧
    ∃ t p', parseRow
        (updPrev none ([["Idle", "Running", "_start"],
          ["", "Running", "__10"],
          ["Running", "Idle", "stop"]].take 1))
        ["", "Running", "__10"] = Except.ok (t, p') ∧
      ([⟨"EVT_start", "Idle", "Running"⟩,
        ⟨"(after 10 sec.)", "Idle", "Running"⟩,
        ⟨"stop", "Running", "Idle"⟩] : List Transition).get? 1 = some t := by
  have h := C8_ok
    [["Idle", "Running", "_start"],
      ["", "Running", "__10"],
      ["Running", "Idle", "stop"]]
    [⟨"EVT_start", "Idle", "Running"⟩,
      ⟨"(after 10 sec.)", "Idle", "Running"⟩,
      ⟨"stop", "Running", "Idle"⟩]
    (by decide)
  exact ⟨h.1, h.2 1 ["", "Running", "__10"] (by decide)⟩

/-- C10: cells beyond the third are silently ignored: a row with extra
cells parses exactly like the row truncated to its first three cells
(the same transition and previous-source update on success, and the same
error class and message on failure, with the error merely reporting the
full row content). -/
theorem C10_ok (prev : Option String) (s d tr : String)
    (rest : List String) :
    parseRow prev (s :: d :: tr :: rest) =
      (parseRow prev [s, d, tr]).mapError (fun e =>
        match e with
        | ParseErr.rowError _ msg => ParseErr.rowError (s :: d :: tr :: rest) msg
        | e => e) := by
  rcases aux_resolveSource_indep prev (s :: d :: tr :: rest) [s, d, tr] s with
    ⟨src, prev', hr1, hr2⟩ | ⟨hr1, hr2⟩
  · by_cases hd : d = ""
    · rw [aux_parseRow_dest_err2 prev s d tr rest src prev' hd hr1,
        aux_parseRow_dest_err2 prev s d tr [] src prev' hd hr2]
      rfl
    · rcases aux_resolveTrigger_indep (s :: d :: tr :: rest) [s, d, tr] d tr with
        ⟨trig, ht1, ht2⟩ | ⟨m, ht1, ht2⟩
      · rw [aux_parseRow_ok_intro prev s d tr rest src prev' trig hr1 hd ht1,
          aux_parseRow_ok_intro prev s d tr [] src prev' trig hr2 hd ht2]
        rfl
      · rw [aux_parseRow_trig_err prev s d tr rest src prev' _ hr1 hd ht1,
          aux_parseRow_trig_err prev s d tr [] src prev' _ hr2 hd ht2]
        rfl
  · rw [aux_parseRow_src_err prev s d tr rest _ hr1,
      aux_parseRow_src_err prev s d tr [] _ hr2]
    rfl

end STTP
